import Mathlib

/-!
Feature keypoints of `colmap/feature/types.cc`.

A shallow embedding of `colmap::FeatureKeypoint`: the eight-field value type, its
constructors, the factory `FromShapeParameters`, the in-place `Rescale` and the
decomposition queries `ComputeScale*`, `ComputeOrientation`, `ComputeShear`.

The C++ type `float` is an abstract carrier `F` that brings its arithmetic, its
comparisons and the four `<cmath>` functions the file calls; the program text is
generic and computable in `F`.  Two kinds of carrier are used.

* A linearly ordered field, and `ℝ` with the real cosine, sine, square root and
  principal argument: exact arithmetic, where rounding, infinities and NaN do not
  exist.  The theorems on construction and rescaling hold on every such carrier,
  the round-trip theorems at `ℝ`.
* `Binary32`, a model of IEEE 754 single precision: NaN, the infinities and the
  finite values, with every operation rounded to nearest, ties to even.  The sign
  of zero is left out and the `<cmath>` functions are taken as correctly rounded.
  It shows where a statement that holds in exact arithmetic fails on the `float`
  the code computes with.

The C++ type `int` of `constraint_point_id` is `Int` (the value is only stored,
never computed with).
-/

namespace colmap

/-- The one error kind of the file: `std::invalid_argument`, which the
`THROW_CHECK_*` macros raise. -/
inductive Error where
  | InvalidArgument
  deriving DecidableEq, Repr

/-- The `<cmath>` functions used by `types.cc`, on the carrier `F` of `float`.
`atan2` takes its arguments in the C order: `atan2 y x`. -/
class FloatMath (F : Type) where
  /-- The function `std::cos`. -/
  cos : F → F
  /-- The function `std::sin`. -/
  sin : F → F
  /-- The function `std::sqrt`. -/
  sqrt : F → F
  /-- The function `std::atan2`, called as `atan2 y x`. -/
  atan2 : F → F → F

/-- The real-number reading of `std::atan2 y x`: the principal argument of the
point `(x, y)`, in `(-π, π]`, with `atan2 0 0 = 0`. -/
noncomputable def realAtan2 (y x : ℝ) : ℝ := Complex.arg ⟨x, y⟩

/-- Exact real arithmetic as the carrier: the `<cmath>` functions are the real
cosine, sine, square root and two-argument arctangent. -/
noncomputable instance instFloatMathReal : FloatMath ℝ where
  cos := Real.cos
  sin := Real.sin
  sqrt := Real.sqrt
  atan2 := realAtan2

/-- Modelled from the spec: the macro `THROW_CHECK_GE` of `colmap/util/logging.h`,
which is not among the sources; `THROW_CHECK_GE(a, b)` goes on when `a >= b` and
otherwise raises the InvalidArgument condition. -/
def THROW_CHECK_GE {F : Type} {m : Type → Type} [Monad m] [MonadExcept Error m]
    [LE F] [DecidableRel (fun a b : F => a ≤ b)] (a b : F) : m Unit :=
  if a ≥ b then pure () else throw Error.InvalidArgument

/-- Modelled from the spec: the macro `THROW_CHECK_GT` of `colmap/util/logging.h`,
which is not among the sources; `THROW_CHECK_GT(a, b)` goes on when `a > b` and
otherwise raises the InvalidArgument condition. -/
def THROW_CHECK_GT {F : Type} {m : Type → Type} [Monad m] [MonadExcept Error m]
    [LT F] [DecidableRel (fun a b : F => a < b)] (a b : F) : m Unit :=
  if a > b then pure () else throw Error.InvalidArgument

/-- The value type `colmap::FeatureKeypoint`: position, weight, constraint
reference and the 2x2 affine shape matrix. -/
structure FeatureKeypoint (F : Type) where
  /-- Image coordinate `x` of the centre. -/
  x : F
  /-- Image coordinate `y` of the centre. -/
  y : F
  /-- Weight of the keypoint. -/
  weight : F
  /-- Reference to a constraint point, `-1` when unset. -/
  constraint_point_id : Int
  /-- Matrix entry, row 1, column 1. -/
  a11 : F
  /-- Matrix entry, row 1, column 2. -/
  a12 : F
  /-- Matrix entry, row 2, column 1. -/
  a21 : F
  /-- Matrix entry, row 2, column 2. -/
  a22 : F
  deriving DecidableEq

namespace FeatureKeypoint

open FloatMath

variable {F : Type} [Zero F] [One F] [OfNat F 2] [Add F] [Sub F] [Mul F] [Neg F] [Div F]
  [LE F] [LT F] [DecidableRel (fun a b : F => a ≤ b)] [DecidableRel (fun a b : F => a < b)]
  [FloatMath F]

/-- The constructor `FeatureKeypoint(x, y, weight, constraint_point_id, a11, a12,
a21, a22)`: stores the eight arguments verbatim. -/
def FeatureKeypoint8 (x_ y_ weight_ : F) (constraint_point_id_ : Int)
    (a11_ a12_ a21_ a22_ : F) : FeatureKeypoint F :=
  { x := x_, y := y_, weight := weight_, constraint_point_id := constraint_point_id_,
    a11 := a11_, a12 := a12_, a21 := a21_, a22 := a22_ }

/-- The constructor `FeatureKeypoint(x, y, weight, constraint_point_id)`: delegates
to the raw-matrix constructor with the matrix `1, 0, 0, 1`. -/
def FeatureKeypoint4 (x y weight_ : F) (constraint_point_id_ : Int) : FeatureKeypoint F :=
  FeatureKeypoint8 x y weight_ constraint_point_id_ 1 0 0 1

/-- The constructor `FeatureKeypoint(x, y, weight)`: delegates with the
constraint reference `-1`. -/
def FeatureKeypoint3 (x y weight_ : F) : FeatureKeypoint F :=
  FeatureKeypoint4 x y weight_ (-1)

/-- The default constructor `FeatureKeypoint()`: delegates with `0, 0, 1, -1`. -/
def FeatureKeypoint0 : FeatureKeypoint F :=
  FeatureKeypoint4 0 0 1 (-1)

/-- The constructor `FeatureKeypoint(x, y, weight, constraint_point_id, scale,
orientation)`.  A constructor that throws yields no object, hence `Except`. -/
def FeatureKeypoint6 (x_ y_ weight_ : F) (constraint_point_id_ : Int)
    (scale orientation : F) : Except Error (FeatureKeypoint F) := do
  THROW_CHECK_GE scale (0 : F)
  let scale_cos_orientation := scale * cos orientation
  let scale_sin_orientation := scale * sin orientation
  return { x := x_, y := y_,
           a11 := scale_cos_orientation,
           a12 := -scale_sin_orientation,
           a21 := scale_sin_orientation,
           a22 := scale_cos_orientation,
           weight := weight_,
           constraint_point_id := constraint_point_id_ }

/-- The static factory `FeatureKeypoint::FromShapeParameters`. -/
def FromShapeParameters (x y weight : F) (constraint_point_id_ : Int)
    (scale_x scale_y orientation shear : F) : Except Error (FeatureKeypoint F) := do
  THROW_CHECK_GE scale_x (0 : F)
  THROW_CHECK_GE scale_y (0 : F)
  return FeatureKeypoint8 x y weight constraint_point_id_
    (scale_x * cos orientation)
    (-scale_y * sin (orientation + shear))
    (scale_x * sin orientation)
    (scale_y * cos (orientation + shear))

/-- The member function `Rescale(scale_x, scale_y)`.  It mutates the object it is
called on: the object is the state, and a throw leaves the state as it is at the
throwing statement. -/
def Rescale (scale_x scale_y : F) : ExceptT Error (StateM (FeatureKeypoint F)) Unit := do
  THROW_CHECK_GT scale_x (0 : F)
  THROW_CHECK_GT scale_y (0 : F)
  modify fun self => { self with x := self.x * scale_x }
  modify fun self => { self with y := self.y * scale_y }
  modify fun self => { self with a11 := self.a11 * scale_x }
  modify fun self => { self with a12 := self.a12 * scale_y }
  modify fun self => { self with a21 := self.a21 * scale_x }
  modify fun self => { self with a22 := self.a22 * scale_y }

/-- The member function `Rescale(scale)`: delegates to `Rescale(scale, scale)`. -/
def Rescale1 (scale : F) : ExceptT Error (StateM (FeatureKeypoint F)) Unit :=
  Rescale scale scale

/-- The member function `ComputeScaleX`. -/
def ComputeScaleX (self : FeatureKeypoint F) : F :=
  sqrt (self.a11 * self.a11 + self.a21 * self.a21)

/-- The member function `ComputeScaleY`. -/
def ComputeScaleY (self : FeatureKeypoint F) : F :=
  sqrt (self.a12 * self.a12 + self.a22 * self.a22)

/-- The member function `ComputeScale`. -/
def ComputeScale (self : FeatureKeypoint F) : F :=
  (self.ComputeScaleX + self.ComputeScaleY) / 2

/-- The member function `ComputeOrientation`. -/
def ComputeOrientation (self : FeatureKeypoint F) : F :=
  atan2 self.a21 self.a11

/-- The member function `ComputeShear`. -/
def ComputeShear (self : FeatureKeypoint F) : F :=
  atan2 (-self.a12) self.a22 - self.ComputeOrientation

end FeatureKeypoint

/-- The values of an IEEE 754 binary32 number, the C++ `float` of the file: NaN,
the two infinities and the finite values, which are rational numbers.  The two
zeros are one value: the sign of a zero is left out. -/
inductive Binary32 where
  /-- Not a number. -/
  | nan
  /-- Infinity, negative when the flag is set. -/
  | inf (negative : Bool)
  /-- A finite value. -/
  | finite (value : ℚ)
  deriving DecidableEq

namespace Binary32

/-- The integer nearest to `t`, the even one of the two when `t` is halfway. -/
def roundHalfEven {K : Type} [LinearOrderedField K] [FloorRing K] (t : K) : ℤ :=
  if t - ⌊t⌋ < 1 / 2 then ⌊t⌋
  else if 1 / 2 < t - ⌊t⌋ then ⌊t⌋ + 1
  else if ⌊t⌋ % 2 = 0 then ⌊t⌋ else ⌊t⌋ + 1

/-- The exponent of the unit in the last place at the magnitude of `r`: 24
significant bits, and the fixed spacing `2^-149` of the subnormal range. -/
def ulpExponent {K : Type} [LinearOrderedField K] [FloorRing K] (r : K) : ℤ :=
  max (Int.log 2 |r| - 23) (-149)

/-- Rounding of an exact result to binary32, to nearest with ties to even: a
magnitude of `2^128 - 2^103` or more overflows to infinity, everything else goes to
the nearest multiple of its unit in the last place. -/
def roundToNearest {K : Type} [LinearOrderedField K] [FloorRing K] (r : K) : Binary32 :=
  if (2 : K) ^ 128 - 2 ^ 103 ≤ |r| then inf (decide (r < 0))
  else finite (roundHalfEven (r / 2 ^ ulpExponent r) * 2 ^ ulpExponent r)

/-- The product of two binary32 numbers. -/
def mul : Binary32 → Binary32 → Binary32
  | nan, _ => nan
  | _, nan => nan
  | inf s, inf t => inf (xor s t)
  | inf s, finite w => if w = 0 then nan else inf (xor s (decide (w < 0)))
  | finite v, inf t => if v = 0 then nan else inf (xor (decide (v < 0)) t)
  | finite v, finite w => roundToNearest (v * w)

/-- The sum of two binary32 numbers. -/
def add : Binary32 → Binary32 → Binary32
  | nan, _ => nan
  | _, nan => nan
  | inf s, inf t => if s = t then inf s else nan
  | inf s, finite _ => inf s
  | finite _, inf t => inf t
  | finite v, finite w => roundToNearest (v + w)

/-- The opposite of a binary32 number. -/
def neg : Binary32 → Binary32
  | nan => nan
  | inf s => inf (!s)
  | finite v => finite (-v)

/-- The difference of two binary32 numbers. -/
def sub (a b : Binary32) : Binary32 := add a (neg b)

/-- The quotient of two binary32 numbers. -/
def div : Binary32 → Binary32 → Binary32
  | nan, _ => nan
  | _, nan => nan
  | inf _, inf _ => nan
  | inf s, finite w => inf (xor s (decide (w < 0)))
  | finite _, inf _ => finite 0
  | finite v, finite w =>
    if w = 0 then (if v = 0 then nan else inf (decide (v < 0))) else roundToNearest (v / w)

/-- The comparison `a <= b` of binary32 numbers; false when one side is NaN. -/
def ble : Binary32 → Binary32 → Bool
  | nan, _ => false
  | _, nan => false
  | inf s, inf t => s || !t
  | inf s, finite _ => s
  | finite _, inf t => !t
  | finite v, finite w => decide (v ≤ w)

/-- The comparison `a < b` of binary32 numbers; false when one side is NaN. -/
def blt : Binary32 → Binary32 → Bool
  | nan, _ => false
  | _, nan => false
  | inf s, inf t => s && !t
  | inf s, finite _ => s
  | finite _, inf t => !t
  | finite v, finite w => decide (v < w)

instance instZero : Zero Binary32 := ⟨finite 0⟩

instance instOne : One Binary32 := ⟨finite 1⟩

instance instOfNatTwo : OfNat Binary32 2 := ⟨finite 2⟩

instance instMul : Mul Binary32 := ⟨mul⟩

instance instAdd : Add Binary32 := ⟨add⟩

instance instNeg : Neg Binary32 := ⟨neg⟩

instance instSub : Sub Binary32 := ⟨sub⟩

instance instDiv : Div Binary32 := ⟨div⟩

instance instLE : LE Binary32 := ⟨fun a b => ble a b = true⟩

instance instLT : LT Binary32 := ⟨fun a b => blt a b = true⟩

instance instDecidableLE : DecidableRel (fun a b : Binary32 => a ≤ b) :=
  fun a b => inferInstanceAs (Decidable (ble a b = true))

instance instDecidableLT : DecidableRel (fun a b : Binary32 => a < b) :=
  fun a b => inferInstanceAs (Decidable (blt a b = true))

/-- The function `std::cos` on binary32, taken as correctly rounded. -/
noncomputable def cos : Binary32 → Binary32
  | finite v => roundToNearest (Real.cos v)
  | _ => nan

/-- The function `std::sin` on binary32, taken as correctly rounded. -/
noncomputable def sin : Binary32 → Binary32
  | finite v => roundToNearest (Real.sin v)
  | _ => nan

/-- The function `std::sqrt` on binary32, correctly rounded. -/
noncomputable def sqrt : Binary32 → Binary32
  | nan => nan
  | inf s => if s then nan else inf false
  | finite v => if v < 0 then nan else roundToNearest (Real.sqrt v)

/-- The function `std::atan2 y x` on binary32, taken as correctly rounded, with the
values at the infinities that the C standard gives. -/
noncomputable def atan2 : Binary32 → Binary32 → Binary32
  | nan, _ => nan
  | _, nan => nan
  | finite v, finite w => roundToNearest (realAtan2 v w)
  | finite v, inf t =>
    if t then roundToNearest (if v < 0 then -Real.pi else Real.pi) else finite 0
  | inf s, finite _ => roundToNearest (if s then -(Real.pi / 2) else Real.pi / 2)
  | inf s, inf t =>
    if t then roundToNearest (if s then -(3 * Real.pi / 4) else 3 * Real.pi / 4)
    else roundToNearest (if s then -(Real.pi / 4) else Real.pi / 4)

/-- The `<cmath>` functions at the carrier binary32. -/
noncomputable instance instFloatMath : FloatMath Binary32 where
  cos := cos
  sin := sin
  sqrt := sqrt
  atan2 := atan2

end Binary32


open FeatureKeypoint

/-- Running `Rescale` from the state `k`: result and final state, by cases on the
two checks. -/
theorem Rescale_run {F : Type} [Zero F] [Mul F] [LT F] [DecidableRel (fun a b : F => a < b)]
    (scale_x scale_y : F) (k : FeatureKeypoint F) :
    (Rescale scale_x scale_y).run k =
      if 0 < scale_x ∧ 0 < scale_y then
        (Except.ok (),
          { x := k.x * scale_x, y := k.y * scale_y, weight := k.weight,
            constraint_point_id := k.constraint_point_id,
            a11 := k.a11 * scale_x, a12 := k.a12 * scale_y,
            a21 := k.a21 * scale_x, a22 := k.a22 * scale_y })
      else (Except.error Error.InvalidArgument, k) := by
  unfold Rescale THROW_CHECK_GT
  by_cases hx : 0 < scale_x <;> by_cases hy : 0 < scale_y <;> simp [hx, hy] <;> rfl

/-- The point with polar coordinates `r`, `θ`, as a complex number. -/
theorem polar_eq (r θ : ℝ) :
    (⟨r * Real.cos θ, r * Real.sin θ⟩ : ℂ) =
      (r : ℂ) * (Complex.cos θ + Complex.sin θ * Complex.I) := by
  apply Complex.ext
  · simp [← Complex.ofReal_cos, ← Complex.ofReal_sin]
  · simp [← Complex.ofReal_cos, ← Complex.ofReal_sin]

/-- On a point at distance `r > 0` and angle `θ` in `(-π, π]`, `atan2` gives `θ`. -/
theorem realAtan2_polar {r θ : ℝ} (hr : 0 < r) (hθ : θ ∈ Set.Ioc (-Real.pi) Real.pi) :
    realAtan2 (r * Real.sin θ) (r * Real.cos θ) = θ := by
  unfold realAtan2
  rw [polar_eq]
  exact Complex.arg_mul_cos_add_sin_mul_I hr hθ

/-- On a point at distance `r > 0` and any angle `θ`, `atan2` gives `θ` up to a
whole number of turns. -/
theorem realAtan2_polar_sub {r : ℝ} (hr : 0 < r) (θ : ℝ) :
    realAtan2 (r * Real.sin θ) (r * Real.cos θ) - θ =
      2 * Real.pi * ⌊(Real.pi - θ) / (2 * Real.pi)⌋ := by
  unfold realAtan2
  rw [polar_eq]
  exact Complex.arg_mul_cos_add_sin_mul_I_sub hr θ

/-- The norm of the column `(r cos θ, r sin θ)` is `r` when `r >= 0`. -/
theorem sqrt_polar {r : ℝ} (hr : 0 ≤ r) (θ : ℝ) :
    Real.sqrt (r * Real.cos θ * (r * Real.cos θ) + r * Real.sin θ * (r * Real.sin θ)) = r := by
  have h : r * Real.cos θ * (r * Real.cos θ) + r * Real.sin θ * (r * Real.sin θ) = r ^ 2 := by
    have := Real.cos_sq_add_sin_sq θ
    nlinarith [this]
  rw [h, Real.sqrt_sq hr]

/-- The norm of the column `(-r sin θ, r cos θ)` is `r` when `r >= 0`. -/
theorem sqrt_polar_neg {r : ℝ} (hr : 0 ≤ r) (θ : ℝ) :
    Real.sqrt (-r * Real.sin θ * (-r * Real.sin θ) + r * Real.cos θ * (r * Real.cos θ)) = r := by
  have h : -r * Real.sin θ * (-r * Real.sin θ) + r * Real.cos θ * (r * Real.cos θ) = r ^ 2 := by
    have := Real.cos_sq_add_sin_sq θ
    nlinarith [this]
  rw [h, Real.sqrt_sq hr]

/-- At the carrier `ℝ`, `cos` is the real cosine. -/
theorem cos_real (t : ℝ) : FloatMath.cos t = Real.cos t := rfl

/-- At the carrier `ℝ`, `sin` is the real sine. -/
theorem sin_real (t : ℝ) : FloatMath.sin t = Real.sin t := rfl

/-- At the carrier `ℝ`, `sqrt` is the real square root. -/
theorem sqrt_real (t : ℝ) : FloatMath.sqrt t = Real.sqrt t := rfl

/-- At the carrier `ℝ`, `atan2` is the principal argument. -/
theorem atan2_real (y x : ℝ) : FloatMath.atan2 y x = realAtan2 y x := rfl

/-- The shape-parameter constructor by cases on its check. -/
theorem FeatureKeypoint6_eq {F : Type} [Zero F] [Mul F] [Neg F] [LE F]
    [DecidableRel (fun a b : F => a ≤ b)] [FloatMath F]
    (x y w : F) (id : Int) (scale orientation : F) :
    FeatureKeypoint6 x y w id scale orientation =
      if 0 ≤ scale then
        Except.ok
          { x := x, y := y, weight := w, constraint_point_id := id,
            a11 := scale * FloatMath.cos orientation,
            a12 := -(scale * FloatMath.sin orientation),
            a21 := scale * FloatMath.sin orientation,
            a22 := scale * FloatMath.cos orientation }
      else Except.error Error.InvalidArgument := by
  unfold FeatureKeypoint6 THROW_CHECK_GE
  by_cases h : 0 ≤ scale <;> simp [h] <;> rfl

/-- The factory `FromShapeParameters` by cases on its two checks. -/
theorem FromShapeParameters_eq {F : Type} [Zero F] [Add F] [Mul F] [Neg F] [LE F]
    [DecidableRel (fun a b : F => a ≤ b)] [FloatMath F]
    (x y w : F) (id : Int) (scale_x scale_y orientation shear : F) :
    FromShapeParameters x y w id scale_x scale_y orientation shear =
      if 0 ≤ scale_x ∧ 0 ≤ scale_y then
        Except.ok
          { x := x, y := y, weight := w, constraint_point_id := id,
            a11 := scale_x * FloatMath.cos orientation,
            a12 := -scale_y * FloatMath.sin (orientation + shear),
            a21 := scale_x * FloatMath.sin orientation,
            a22 := scale_y * FloatMath.cos (orientation + shear) }
      else Except.error Error.InvalidArgument := by
  unfold FromShapeParameters THROW_CHECK_GE FeatureKeypoint8
  by_cases hx : 0 ≤ scale_x <;> by_cases hy : 0 ≤ scale_y <;> simp [hx, hy] <;> rfl

/-- C3: for `scale_x >= 0` and `scale_y >= 0`, `FromShapeParameters` returns the
keypoint with `x`, `y`, `weight`, `constraint_point_id` as given and the matrix
`a11 = scale_x*cos(orientation)`, `a12 = -scale_y*sin(orientation + shear)`,
`a21 = scale_x*sin(orientation)`, `a22 = scale_y*cos(orientation + shear)`. -/
theorem FromShapeParameters_ok {F : Type} [LinearOrderedField F] [FloatMath F]
    (x y w : F) (id : Int) (scale_x scale_y orientation shear : F)
    (hx : 0 ≤ scale_x) (hy : 0 ≤ scale_y) :
    FromShapeParameters x y w id scale_x scale_y orientation shear =
      Except.ok
        { x := x, y := y, weight := w, constraint_point_id := id,
          a11 := scale_x * FloatMath.cos orientation,
          a12 := -scale_y * FloatMath.sin (orientation + shear),
          a21 := scale_x * FloatMath.sin orientation,
          a22 := scale_y * FloatMath.cos (orientation + shear) } := by
  rw [FromShapeParameters_eq, if_pos ⟨hx, hy⟩]

/-- C3, at the concrete call: `FromShapeParameters(10, 20, 1, -1, 2, 3, 0, 0)`
yields `a11 = 2`, `a12 = 0`, `a21 = 0`, `a22 = 3`. -/
theorem FromShapeParameters_ok_witness :
    FromShapeParameters (10 : ℝ) 20 1 (-1) 2 3 0 0 =
      Except.ok
        { x := 10, y := 20, weight := 1, constraint_point_id := -1,
          a11 := 2, a12 := 0, a21 := 0, a22 := 3 } := by
  have h := FromShapeParameters_ok (10 : ℝ) 20 1 (-1) 2 3 0 0 (by norm_num) (by norm_num)
  simpa [FloatMath.cos, FloatMath.sin] using h

/-- C4: for `scale >= 0`, the shape-parameter constructor yields the keypoint with
`x`, `y`, `weight`, `constraint_point_id` as given and the matrix
`a11 = scale*cos(orientation)`, `a12 = -scale*sin(orientation)`,
`a21 = scale*sin(orientation)`, `a22 = scale*cos(orientation)`. -/
theorem FeatureKeypoint6_ok {F : Type} [LinearOrderedField F] [FloatMath F]
    (x y w : F) (id : Int) (scale orientation : F) (hs : 0 ≤ scale) :
    FeatureKeypoint6 x y w id scale orientation =
      Except.ok
        { x := x, y := y, weight := w, constraint_point_id := id,
          a11 := scale * FloatMath.cos orientation,
          a12 := -scale * FloatMath.sin orientation,
          a21 := scale * FloatMath.sin orientation,
          a22 := scale * FloatMath.cos orientation } := by
  rw [FeatureKeypoint6_eq, if_pos hs, neg_mul]

/-- C4, at a concrete call: scale `2` at orientation `0` gives the matrix
`2, 0, 0, 2`. -/
theorem FeatureKeypoint6_ok_witness :
    FeatureKeypoint6 (10 : ℝ) 20 1 (-1) 2 0 =
      Except.ok
        { x := 10, y := 20, weight := 1, constraint_point_id := -1,
          a11 := 2, a12 := 0, a21 := 0, a22 := 2 } := by
  have h := FeatureKeypoint6_ok (10 : ℝ) 20 1 (-1) 2 0 (by norm_num)
  simpa [FloatMath.cos, FloatMath.sin] using h

/-- C5: for `scale_x > 0` and `scale_y > 0`, `Rescale(scale_x, scale_y)` succeeds
and multiplies `x`, `a11`, `a21` by `scale_x` and `y`, `a12`, `a22` by `scale_y`;
`weight` and `constraint_point_id` stay as they were. -/
theorem Rescale_ok {F : Type} [LinearOrderedField F] (k : FeatureKeypoint F)
    (scale_x scale_y : F) (hx : 0 < scale_x) (hy : 0 < scale_y) :
    (Rescale scale_x scale_y).run k =
      (Except.ok (),
        { x := k.x * scale_x, y := k.y * scale_y, weight := k.weight,
          constraint_point_id := k.constraint_point_id,
          a11 := k.a11 * scale_x, a12 := k.a12 * scale_y,
          a21 := k.a21 * scale_x, a22 := k.a22 * scale_y }) := by
  rw [Rescale_run, if_pos ⟨hx, hy⟩]

/-- C5, at the concrete call: `Rescale(2, 3)` on the default (identity) keypoint
succeeds with `a11 = 2`, `a22 = 3`, `a12 = a21 = 0`. -/
theorem Rescale_ok_witness :
    (Rescale (2 : ℝ) 3).run FeatureKeypoint0 =
      (Except.ok (),
        { x := 0, y := 0, weight := 1, constraint_point_id := -1,
          a11 := 2, a12 := 0, a21 := 0, a22 := 3 }) := by
  have h := Rescale_ok (FeatureKeypoint0 (F := ℝ)) 2 3 (by norm_num) (by norm_num)
  simpa [FeatureKeypoint0, FeatureKeypoint4, FeatureKeypoint8] using h

/-- C7: for `scale > 0` and every orientation, the shape-parameter constructor
succeeds and `ComputeScale` of the keypoint it builds is `scale`. -/
theorem scale_roundtrip (x y w : ℝ) (id : Int) (scale orientation : ℝ) (hs : 0 < scale) :
    ∃ k, FeatureKeypoint6 x y w id scale orientation = Except.ok k ∧
      k.ComputeScale = scale := by
  rw [FeatureKeypoint6_eq, if_pos hs.le]
  refine ⟨_, rfl, ?_⟩
  simp only [ComputeScale, ComputeScaleX, ComputeScaleY, cos_real, sin_real, sqrt_real]
  rw [sqrt_polar hs.le, ← neg_mul, sqrt_polar_neg hs.le]
  ring

/-- C7, at a concrete call: scale `2` at orientation `1`. -/
theorem scale_roundtrip_witness :
    ∃ k, FeatureKeypoint6 (10 : ℝ) 20 1 (-1) 2 1 = Except.ok k ∧ k.ComputeScale = 2 :=
  scale_roundtrip 10 20 1 (-1) 2 1 (by norm_num)

/-- C8: for `scale_x, scale_y > 0` and all `orientation`, `shear`,
`FromShapeParameters` succeeds and the keypoint it builds has
`ComputeScaleX = scale_x` and `ComputeScaleY = scale_y`. -/
theorem anisotropic_scale_roundtrip (x y w : ℝ) (id : Int)
    (scale_x scale_y orientation shear : ℝ) (hx : 0 < scale_x) (hy : 0 < scale_y) :
    ∃ k, FromShapeParameters x y w id scale_x scale_y orientation shear = Except.ok k ∧
      k.ComputeScaleX = scale_x ∧ k.ComputeScaleY = scale_y := by
  rw [FromShapeParameters_eq, if_pos ⟨hx.le, hy.le⟩]
  refine ⟨_, rfl, ?_, ?_⟩
  · simp only [ComputeScaleX, cos_real, sin_real, sqrt_real]
    exact sqrt_polar hx.le orientation
  · simp only [ComputeScaleY, cos_real, sin_real, sqrt_real]
    exact sqrt_polar_neg hy.le (orientation + shear)

/-- C8, at the concrete call: scales `2` and `3` at `orientation = shear = 0`. -/
theorem anisotropic_scale_roundtrip_witness :
    ∃ k, FromShapeParameters (10 : ℝ) 20 1 (-1) 2 3 0 0 = Except.ok k ∧
      k.ComputeScaleX = 2 ∧ k.ComputeScaleY = 3 :=
  anisotropic_scale_roundtrip 10 20 1 (-1) 2 3 0 0 (by norm_num) (by norm_num)

/-- C9: for `scale_x, scale_y > 0`, `orientation` in `(-π, π]` and `shear` with
`orientation + shear` in `(-π, π]`, `FromShapeParameters` succeeds and the keypoint
it builds has `ComputeOrientation = orientation` and `ComputeShear = shear`. -/
theorem anisotropic_angle_roundtrip (x y w : ℝ) (id : Int)
    (scale_x scale_y orientation shear : ℝ) (hx : 0 < scale_x) (hy : 0 < scale_y)
    (ho : orientation ∈ Set.Ioc (-Real.pi) Real.pi)
    (hos : orientation + shear ∈ Set.Ioc (-Real.pi) Real.pi) :
    ∃ k, FromShapeParameters x y w id scale_x scale_y orientation shear = Except.ok k ∧
      k.ComputeOrientation = orientation ∧ k.ComputeShear = shear := by
  rw [FromShapeParameters_eq, if_pos ⟨hx.le, hy.le⟩]
  refine ⟨_, rfl, ?_, ?_⟩
  · simp only [ComputeOrientation, cos_real, sin_real, atan2_real]
    exact realAtan2_polar hx ho
  · simp only [ComputeShear, ComputeOrientation, cos_real, sin_real, atan2_real, neg_mul,
      neg_neg]
    rw [realAtan2_polar hx ho, realAtan2_polar hy hos]
    ring

/-- C9, at a concrete call: scales `2` and `3`, `orientation = π`, `shear = -π/2`. -/
theorem anisotropic_angle_roundtrip_witness :
    ∃ k, FromShapeParameters (10 : ℝ) 20 1 (-1) 2 3 Real.pi (-(Real.pi / 2)) = Except.ok k ∧
      k.ComputeOrientation = Real.pi ∧ k.ComputeShear = -(Real.pi / 2) :=
  anisotropic_angle_roundtrip 10 20 1 (-1) 2 3 Real.pi (-(Real.pi / 2)) (by norm_num)
    (by norm_num) ⟨by linarith [Real.pi_pos], le_rfl⟩
    ⟨by linarith [Real.pi_pos], by linarith [Real.pi_pos]⟩

/-- C10: for `scale_x, scale_y > 0` and all real `orientation`, `shear`,
`FromShapeParameters` succeeds and the keypoint it builds has
`ComputeOrientation = orientation + 2πm` and `ComputeShear = shear + 2πn` for some
integers `m`, `n`. -/
theorem angle_recovery_mod_two_pi (x y w : ℝ) (id : Int)
    (scale_x scale_y orientation shear : ℝ) (hx : 0 < scale_x) (hy : 0 < scale_y) :
    ∃ k, FromShapeParameters x y w id scale_x scale_y orientation shear = Except.ok k ∧
      ∃ m n : ℤ, k.ComputeOrientation = orientation + 2 * Real.pi * m ∧
        k.ComputeShear = shear + 2 * Real.pi * n := by
  rw [FromShapeParameters_eq, if_pos ⟨hx.le, hy.le⟩]
  refine ⟨_, rfl, ⌊(Real.pi - orientation) / (2 * Real.pi)⌋,
    ⌊(Real.pi - (orientation + shear)) / (2 * Real.pi)⌋ -
      ⌊(Real.pi - orientation) / (2 * Real.pi)⌋, ?_, ?_⟩
  · simp only [ComputeOrientation, cos_real, sin_real, atan2_real]
    linarith [realAtan2_polar_sub hx orientation]
  · simp only [ComputeShear, ComputeOrientation, cos_real, sin_real, atan2_real, neg_mul,
      neg_neg]
    push_cast
    linarith [realAtan2_polar_sub hx orientation, realAtan2_polar_sub hy (orientation + shear)]

/-- C10, at a concrete call outside the principal range: `orientation = 7`,
`shear = 5`. -/
theorem angle_recovery_mod_two_pi_witness :
    ∃ k, FromShapeParameters (10 : ℝ) 20 1 (-1) 2 3 7 5 = Except.ok k ∧
      ∃ m n : ℤ, k.ComputeOrientation = 7 + 2 * Real.pi * m ∧
        k.ComputeShear = 5 + 2 * Real.pi * n :=
  angle_recovery_mod_two_pi 10 20 1 (-1) 2 3 7 5 (by norm_num) (by norm_num)

/-- Running two stateful steps one after the other: the second starts from the
state the first one left, and is skipped when the first one throws. -/
theorem seq_run {σ : Type} (a b : ExceptT Error (StateM σ) Unit) (k : σ) :
    (a >>= fun _ => b).run k =
      match a.run k with
      | (Except.ok _, k1) => b.run k1
      | (Except.error e, k1) => (Except.error e, k1) := by
  show (ExceptT.run a >>= ExceptT.bindCont (fun _ => b)) k = _
  show (match ExceptT.run a k with | (r, k1) => ExceptT.bindCont (fun _ => b) r k1) = _
  rcases h : ExceptT.run a k with ⟨r, k1⟩
  cases r <;> rfl

/-- Scaling a point by a positive factor does not change its `atan2`. -/
theorem realAtan2_scale {r : ℝ} (hr : 0 < r) (y x : ℝ) :
    realAtan2 (y * r) (x * r) = realAtan2 y x := by
  unfold realAtan2
  have h : (⟨x * r, y * r⟩ : ℂ) = (r : ℂ) * ⟨x, y⟩ := by
    apply Complex.ext <;> simp [mul_comm]
  rw [h, Complex.arg_real_mul _ hr]

/-- Scaling a column by a non-negative factor scales its norm by that factor. -/
theorem sqrt_scale {r : ℝ} (hr : 0 ≤ r) (a b : ℝ) :
    Real.sqrt (a * r * (a * r) + b * r * (b * r)) = r * Real.sqrt (a * a + b * b) := by
  have h : a * r * (a * r) + b * r * (b * r) = r ^ 2 * (a * a + b * b) := by ring
  rw [h, Real.sqrt_mul (sq_nonneg r), Real.sqrt_sq hr]

/-- C12: for `s > 0` and `t > 0`, `Rescale(s)` followed by `Rescale(t)` succeeds and
leaves the keypoint in the state a single `Rescale(s*t)` leaves it in, which
succeeds as well. -/
theorem Rescale_composition {F : Type} [LinearOrderedField F] (k : FeatureKeypoint F)
    (s t : F) (hs : 0 < s) (ht : 0 < t) :
    (Rescale1 s >>= fun _ => Rescale1 t).run k = (Rescale1 (s * t)).run k ∧
      ((Rescale1 s >>= fun _ => Rescale1 t).run k).1 = Except.ok () ∧
      ((Rescale1 s).run k).1 = Except.ok () := by
  have hst : 0 < s * t := mul_pos hs ht
  rw [seq_run]
  simp only [Rescale1, Rescale_run, hs, ht, hst, and_self, if_true, mul_assoc]

/-- C12, at a concrete call: `Rescale(2)` then `Rescale(3)` on the keypoint with
position `(1, 1)` and identity matrix ends in position `(6, 6)` and matrix
`6, 0, 0, 6`. -/
theorem Rescale_composition_witness :
    ((Rescale1 (2 : ℝ) >>= fun _ => Rescale1 3).run (FeatureKeypoint4 1 1 1 (-1))) =
      (Except.ok (),
        { x := 6, y := 6, weight := 1, constraint_point_id := -1,
          a11 := 6, a12 := 0, a21 := 0, a22 := 6 }) := by
  have h := (Rescale_composition (FeatureKeypoint4 (1 : ℝ) 1 1 (-1)) 2 3
    (by norm_num) (by norm_num)).1
  rw [h, Rescale1, Rescale_run]
  norm_num [FeatureKeypoint4, FeatureKeypoint8]

/-- C13: for every keypoint and `sx > 0`, `sy > 0`, `Rescale(sx, sy)` succeeds and
afterwards `ComputeScaleX` is `sx` times its value before the call and
`ComputeScaleY` is `sy` times its value before the call. -/
theorem Rescale_scales (k : FeatureKeypoint ℝ) (sx sy : ℝ) (hx : 0 < sx) (hy : 0 < sy) :
    ((Rescale sx sy).run k).1 = Except.ok () ∧
      ((Rescale sx sy).run k).2.ComputeScaleX = sx * k.ComputeScaleX ∧
      ((Rescale sx sy).run k).2.ComputeScaleY = sy * k.ComputeScaleY := by
  rw [Rescale_run, if_pos ⟨hx, hy⟩]
  refine ⟨rfl, ?_, ?_⟩
  · simp only [ComputeScaleX, sqrt_real]
    exact sqrt_scale hx.le k.a11 k.a21
  · simp only [ComputeScaleY, sqrt_real]
    exact sqrt_scale hy.le k.a12 k.a22

/-- C13, at a concrete call: `Rescale(2, 3)` on the keypoint with matrix
`3, 0, 4, 1`, whose first column has norm `5` and second norm `1`. -/
theorem Rescale_scales_witness :
    ((Rescale (2 : ℝ) 3).run (FeatureKeypoint8 0 0 1 (-1) 3 0 4 1)).2.ComputeScaleX =
        2 * (FeatureKeypoint8 (0 : ℝ) 0 1 (-1) 3 0 4 1).ComputeScaleX ∧
      ((Rescale (2 : ℝ) 3).run (FeatureKeypoint8 0 0 1 (-1) 3 0 4 1)).2.ComputeScaleY =
        3 * (FeatureKeypoint8 (0 : ℝ) 0 1 (-1) 3 0 4 1).ComputeScaleY :=
  (Rescale_scales (FeatureKeypoint8 0 0 1 (-1) 3 0 4 1) 2 3 (by norm_num) (by norm_num)).2

/-- C14, in exact real arithmetic: for every keypoint, whatever its matrix, and
`scale_x > 0`, `scale_y > 0`,
`Rescale(scale_x, scale_y)` succeeds and leaves `ComputeOrientation` and
`ComputeShear` as they were before the call. -/
theorem Rescale_preserves_angles (k : FeatureKeypoint ℝ) (scale_x scale_y : ℝ)
    (hx : 0 < scale_x) (hy : 0 < scale_y) :
    ((Rescale scale_x scale_y).run k).1 = Except.ok () ∧
      ((Rescale scale_x scale_y).run k).2.ComputeOrientation = k.ComputeOrientation ∧
      ((Rescale scale_x scale_y).run k).2.ComputeShear = k.ComputeShear := by
  rw [Rescale_run, if_pos ⟨hx, hy⟩]
  refine ⟨rfl, ?_, ?_⟩
  · simp only [ComputeOrientation, atan2_real]
    exact realAtan2_scale hx k.a21 k.a11
  · simp only [ComputeShear, ComputeOrientation, atan2_real]
    rw [← neg_mul, realAtan2_scale hy, realAtan2_scale hx]

/-- C14, at a concrete call: `Rescale(2, 3)` on a keypoint whose matrix is the
reflection `1, 0, 0, -1`. -/
theorem Rescale_preserves_angles_witness :
    ((Rescale (2 : ℝ) 3).run (FeatureKeypoint8 0 0 1 (-1) 1 0 0 (-1))).2.ComputeOrientation =
        (FeatureKeypoint8 (0 : ℝ) 0 1 (-1) 1 0 0 (-1)).ComputeOrientation ∧
      ((Rescale (2 : ℝ) 3).run (FeatureKeypoint8 0 0 1 (-1) 1 0 0 (-1))).2.ComputeShear =
        (FeatureKeypoint8 (0 : ℝ) 0 1 (-1) 1 0 0 (-1)).ComputeShear :=
  (Rescale_preserves_angles (FeatureKeypoint8 0 0 1 (-1) 1 0 0 (-1)) 2 3
    (by norm_num) (by norm_num)).2

/-- C15, in exact real arithmetic: for `scale_x, scale_y >= 0` the matrix built by
`FromShapeParameters` is
the rotation by `orientation` times `[[scale_x, -scale_y*sin(shear)], [0,
scale_y*cos(shear)]]`, with determinant `scale_x*scale_y*cos(shear)`; for
`scale >= 0` the matrix built by the shape-parameter constructor is `scale` times
the rotation by `orientation`. -/
theorem shape_matrix_factorization (x y w : ℝ) (id : Int)
    (scale scale_x scale_y orientation shear : ℝ)
    (hs : 0 ≤ scale) (hx : 0 ≤ scale_x) (hy : 0 ≤ scale_y) :
    (∃ k, FromShapeParameters x y w id scale_x scale_y orientation shear = Except.ok k ∧
        !![k.a11, k.a12; k.a21, k.a22] =
          !![Real.cos orientation, -Real.sin orientation;
             Real.sin orientation, Real.cos orientation] *
            !![scale_x, -scale_y * Real.sin shear; 0, scale_y * Real.cos shear] ∧
        Matrix.det !![k.a11, k.a12; k.a21, k.a22] = scale_x * scale_y * Real.cos shear) ∧
      ∃ k, FeatureKeypoint6 x y w id scale orientation = Except.ok k ∧
        !![k.a11, k.a12; k.a21, k.a22] =
          scale • !![Real.cos orientation, -Real.sin orientation;
                     Real.sin orientation, Real.cos orientation] := by
  rw [FromShapeParameters_eq, if_pos ⟨hx, hy⟩, FeatureKeypoint6_eq, if_pos hs]
  refine ⟨⟨_, rfl, ?_, ?_⟩, _, rfl, ?_⟩
  · simp only [cos_real, sin_real, Real.sin_add, Real.cos_add]
    ext i j
    fin_cases i <;> fin_cases j <;> simp [Matrix.mul_apply, Fin.sum_univ_two] <;> ring
  · simp only [cos_real, sin_real, Real.sin_add, Real.cos_add, Matrix.det_fin_two_of]
    have h := Real.cos_sq_add_sin_sq orientation
    linear_combination scale_x * scale_y * Real.cos shear * h
  · simp only [cos_real, sin_real]
    ext i j
    fin_cases i <;> fin_cases j <;> simp

/-- C15, at a concrete call: scales `2`, `3` at `orientation = shear = 0` give the
matrix `2, 0, 0, 3` of determinant `6`. -/
theorem shape_matrix_factorization_witness :
    ∃ k, FromShapeParameters (10 : ℝ) 20 1 (-1) 2 3 0 0 = Except.ok k ∧
      Matrix.det !![k.a11, k.a12; k.a21, k.a22] = 6 := by
  obtain ⟨k, hk, _, hdet⟩ := (shape_matrix_factorization 10 20 1 (-1) 1 2 3 0 0
    (by norm_num) (by norm_num) (by norm_num)).1
  refine ⟨k, hk, ?_⟩
  rw [hdet]
  norm_num

/-- The norm of the first column of the identity matrix is `1`. -/
theorem sqrt_one_zero : Real.sqrt (1 * 1 + 0 * 0) = 1 := by norm_num

/-- The norm of the second column of the identity matrix is `1`. -/
theorem sqrt_zero_one : Real.sqrt (0 * 0 + 1 * 1) = 1 := by norm_num

/-- The point `(1, 0)` has `atan2` equal to `0`. -/
theorem realAtan2_zero_one : realAtan2 0 1 = 0 := by
  have h : (⟨1, 0⟩ : ℂ) = 1 := by apply Complex.ext <;> simp
  rw [realAtan2, h, Complex.arg_one]

/-- C16: the default constructor gives `x = y = 0`, `weight = 1`,
`constraint_point_id = -1`; the `(x, y, weight)` constructor gives its three
arguments and `constraint_point_id = -1`; the `(x, y, weight, id)` constructor its
four arguments; each stores the identity matrix, has `ComputeScale = 1` and
`ComputeOrientation = 0`, and is the value the shape-parameter constructor builds
with `scale = 1`, `orientation = 0`. -/
theorem simple_constructors (x y w : ℝ) (id : Int) :
    ((FeatureKeypoint0 : FeatureKeypoint ℝ) =
        { x := 0, y := 0, weight := 1, constraint_point_id := -1,
          a11 := 1, a12 := 0, a21 := 0, a22 := 1 } ∧
      FeatureKeypoint3 x y w =
        { x := x, y := y, weight := w, constraint_point_id := -1,
          a11 := 1, a12 := 0, a21 := 0, a22 := 1 } ∧
      FeatureKeypoint4 x y w id =
        { x := x, y := y, weight := w, constraint_point_id := id,
          a11 := 1, a12 := 0, a21 := 0, a22 := 1 }) ∧
      ((FeatureKeypoint0 : FeatureKeypoint ℝ).ComputeScale = 1 ∧
        (FeatureKeypoint3 x y w).ComputeScale = 1 ∧
        (FeatureKeypoint4 x y w id).ComputeScale = 1) ∧
      ((FeatureKeypoint0 : FeatureKeypoint ℝ).ComputeOrientation = 0 ∧
        (FeatureKeypoint3 x y w).ComputeOrientation = 0 ∧
        (FeatureKeypoint4 x y w id).ComputeOrientation = 0) ∧
      (FeatureKeypoint6 (0 : ℝ) 0 1 (-1) 1 0 = Except.ok FeatureKeypoint0 ∧
        FeatureKeypoint6 x y w (-1) 1 0 = Except.ok (FeatureKeypoint3 x y w) ∧
        FeatureKeypoint6 x y w id 1 0 = Except.ok (FeatureKeypoint4 x y w id)) := by
  refine ⟨⟨rfl, rfl, rfl⟩, ⟨?_, ?_, ?_⟩, ⟨?_, ?_, ?_⟩, ⟨?_, ?_, ?_⟩⟩
  · simp only [ComputeScale, ComputeScaleX, ComputeScaleY, FeatureKeypoint0, FeatureKeypoint4,
      FeatureKeypoint8, sqrt_real, sqrt_one_zero, sqrt_zero_one]
    norm_num
  · simp only [ComputeScale, ComputeScaleX, ComputeScaleY, FeatureKeypoint3, FeatureKeypoint4,
      FeatureKeypoint8, sqrt_real, sqrt_one_zero, sqrt_zero_one]
    norm_num
  · simp only [ComputeScale, ComputeScaleX, ComputeScaleY, FeatureKeypoint4,
      FeatureKeypoint8, sqrt_real, sqrt_one_zero, sqrt_zero_one]
    norm_num
  · simp only [ComputeOrientation, FeatureKeypoint0, FeatureKeypoint4, FeatureKeypoint8,
      atan2_real, realAtan2_zero_one]
  · simp only [ComputeOrientation, FeatureKeypoint3, FeatureKeypoint4, FeatureKeypoint8,
      atan2_real, realAtan2_zero_one]
  · simp only [ComputeOrientation, FeatureKeypoint4, FeatureKeypoint8,
      atan2_real, realAtan2_zero_one]
  · rw [FeatureKeypoint6_eq, if_pos zero_le_one]
    simp [FeatureKeypoint0, FeatureKeypoint4, FeatureKeypoint8, cos_real, sin_real]
  · rw [FeatureKeypoint6_eq, if_pos zero_le_one]
    simp [FeatureKeypoint3, FeatureKeypoint4, FeatureKeypoint8, cos_real, sin_real]
  · rw [FeatureKeypoint6_eq, if_pos zero_le_one]
    simp [FeatureKeypoint4, FeatureKeypoint8, cos_real, sin_real]

/-- C16, at a concrete call: the `(x, y, weight)` constructor at `(10, 20, 5)`. -/
theorem simple_constructors_witness :
    FeatureKeypoint3 (10 : ℝ) 20 5 =
        { x := 10, y := 20, weight := 5, constraint_point_id := -1,
          a11 := 1, a12 := 0, a21 := 0, a22 := 1 } ∧
      (FeatureKeypoint3 (10 : ℝ) 20 5).ComputeScale = 1 ∧
      (FeatureKeypoint3 (10 : ℝ) 20 5).ComputeOrientation = 0 :=
  have h := simple_constructors 10 20 5 7
  ⟨h.1.2.1, h.2.1.2.1, h.2.2.1.2.1⟩

/-- C17, in exact real arithmetic: for a keypoint built from four arbitrary matrix
entries,
`ComputeScaleX = sqrt(a11^2 + a21^2)`, `ComputeScaleY = sqrt(a12^2 + a22^2)` and
`ComputeScale` are non-negative, `ComputeScaleX = 0` exactly when `a11 = a21 = 0`
and `ComputeScaleY = 0` exactly when `a12 = a22 = 0`. -/
theorem scales_nonneg (x y w : ℝ) (id : Int) (a11 a12 a21 a22 : ℝ) :
    (FeatureKeypoint8 x y w id a11 a12 a21 a22).ComputeScaleX =
        Real.sqrt (a11 ^ 2 + a21 ^ 2) ∧
      (FeatureKeypoint8 x y w id a11 a12 a21 a22).ComputeScaleY =
        Real.sqrt (a12 ^ 2 + a22 ^ 2) ∧
      0 ≤ (FeatureKeypoint8 x y w id a11 a12 a21 a22).ComputeScaleX ∧
      0 ≤ (FeatureKeypoint8 x y w id a11 a12 a21 a22).ComputeScaleY ∧
      0 ≤ (FeatureKeypoint8 x y w id a11 a12 a21 a22).ComputeScale ∧
      ((FeatureKeypoint8 x y w id a11 a12 a21 a22).ComputeScaleX = 0 ↔ a11 = 0 ∧ a21 = 0) ∧
      ((FeatureKeypoint8 x y w id a11 a12 a21 a22).ComputeScaleY = 0 ↔ a12 = 0 ∧ a22 = 0) := by
  simp only [ComputeScale, ComputeScaleX, ComputeScaleY, FeatureKeypoint8, sqrt_real]
  have h1 : 0 ≤ a11 * a11 + a21 * a21 := add_nonneg (mul_self_nonneg _) (mul_self_nonneg _)
  have h2 : 0 ≤ a12 * a12 + a22 * a22 := add_nonneg (mul_self_nonneg _) (mul_self_nonneg _)
  refine ⟨by rw [sq, sq], by rw [sq, sq], Real.sqrt_nonneg _, Real.sqrt_nonneg _, ?_, ?_, ?_⟩
  · have := Real.sqrt_nonneg (a11 * a11 + a21 * a21)
    have := Real.sqrt_nonneg (a12 * a12 + a22 * a22)
    linarith
  · rw [Real.sqrt_eq_zero h1]
    exact mul_self_add_mul_self_eq_zero
  · rw [Real.sqrt_eq_zero h2]
    exact mul_self_add_mul_self_eq_zero

/-- C17, at a concrete call: the reflection `1, 0, 0, -1` has non-negative scales,
and the zero matrix has `ComputeScaleX = 0`. -/
theorem scales_nonneg_witness :
    0 ≤ (FeatureKeypoint8 (0 : ℝ) 0 1 (-1) 1 0 0 (-1)).ComputeScaleY ∧
      (FeatureKeypoint8 (0 : ℝ) 0 1 (-1) 0 0 0 0).ComputeScaleX = 0 :=
  ⟨(scales_nonneg 0 0 1 (-1) 1 0 0 (-1)).2.2.2.1,
    (scales_nonneg 0 0 1 (-1) 0 0 0 0).2.2.2.2.2.1.mpr ⟨rfl, rfl⟩⟩

/-- C18: for every keypoint, `ComputeScale` is exactly
`(ComputeScaleX + ComputeScaleY) / 2`. -/
theorem ComputeScale_is_mean {F : Type} [LinearOrderedField F] [FloatMath F]
    (k : FeatureKeypoint F) :
    k.ComputeScale = (k.ComputeScaleX + k.ComputeScaleY) / 2 := by
  unfold ComputeScale
  rfl

/-- C18, at a concrete keypoint: the matrix `3, 0, 4, 1` has scales `5` and `1`
and `ComputeScale = 3`. -/
theorem ComputeScale_is_mean_witness :
    (FeatureKeypoint8 (0 : ℝ) 0 1 (-1) 3 0 4 1).ComputeScale = 3 := by
  rw [ComputeScale_is_mean]
  have h5 : Real.sqrt (3 * 3 + 4 * 4) = 5 := by
    rw [show (3 : ℝ) * 3 + 4 * 4 = 5 ^ 2 by norm_num]
    exact Real.sqrt_sq (by norm_num)
  simp only [ComputeScaleX, ComputeScaleY, FeatureKeypoint8, sqrt_real, h5, sqrt_zero_one]
  norm_num

/-- C19, in exact arithmetic (any linearly ordered field): for `scale_x, scale_y >= 0`
and `rx, ry > 0`, `Rescale(rx, ry)` applied to
`FromShapeParameters(x, y, w, id, scale_x, scale_y, orientation, shear)` succeeds
and leaves the keypoint
`FromShapeParameters(x*rx, y*ry, w, id, scale_x*rx, scale_y*ry, orientation, shear)`. -/
theorem Rescale_FromShapeParameters {F : Type} [LinearOrderedField F] [FloatMath F]
    (x y w : F) (id : Int) (scale_x scale_y orientation shear rx ry : F)
    (hx : 0 ≤ scale_x) (hy : 0 ≤ scale_y) (hrx : 0 < rx) (hry : 0 < ry) :
    ∃ k k1, FromShapeParameters x y w id scale_x scale_y orientation shear = Except.ok k ∧
      (Rescale rx ry).run k = (Except.ok (), k1) ∧
      FromShapeParameters (x * rx) (y * ry) w id (scale_x * rx) (scale_y * ry)
        orientation shear = Except.ok k1 := by
  have hx1 : 0 ≤ scale_x * rx := mul_nonneg hx hrx.le
  have hy1 : 0 ≤ scale_y * ry := mul_nonneg hy hry.le
  simp only [FromShapeParameters_eq, Rescale_run, if_pos (And.intro hx hy),
    if_pos (And.intro hx1 hy1), if_pos (And.intro hrx hry)]
  refine ⟨_, _, rfl, rfl, ?_⟩
  congr 2 <;> ring

/-- C19, at a concrete call: `Rescale(2, 3)` on
`FromShapeParameters(10, 20, 1, -1, 2, 3, 0, 0)` leaves
`FromShapeParameters(20, 60, 1, -1, 4, 9, 0, 0)`. -/
theorem Rescale_FromShapeParameters_witness :
    ∃ k k1, FromShapeParameters (10 : ℝ) 20 1 (-1) 2 3 0 0 = Except.ok k ∧
      (Rescale 2 3).run k = (Except.ok (), k1) ∧
      FromShapeParameters (10 * 2 : ℝ) (20 * 3) 1 (-1) (2 * 2) (3 * 3) 0 0 = Except.ok k1 :=
  Rescale_FromShapeParameters 10 20 1 (-1) 2 3 0 0 2 3 (by norm_num) (by norm_num)
    (by norm_num) (by norm_num)

/-- C20, in exact real arithmetic: for `scale >= 0` and every orientation, the
keypoint built by the
shape-parameter constructor has `a22 = a11` and `a12 = -a21`, `ComputeShear = 0`,
and `ComputeScaleX = ComputeScaleY = ComputeScale = scale`. -/
theorem isotropic_shape (x y w : ℝ) (id : Int) (scale orientation : ℝ) (hs : 0 ≤ scale) :
    ∃ k, FeatureKeypoint6 x y w id scale orientation = Except.ok k ∧
      k.a22 = k.a11 ∧ k.a12 = -k.a21 ∧ k.ComputeShear = 0 ∧
      k.ComputeScaleX = scale ∧ k.ComputeScaleY = scale ∧ k.ComputeScale = scale := by
  rw [FeatureKeypoint6_eq, if_pos hs]
  refine ⟨_, rfl, rfl, rfl, ?_, ?_, ?_, ?_⟩
  · simp only [ComputeShear, ComputeOrientation, neg_neg, sub_self]
  · simp only [ComputeScaleX, cos_real, sin_real, sqrt_real]
    exact sqrt_polar hs orientation
  · simp only [ComputeScaleY, cos_real, sin_real, sqrt_real]
    rw [← neg_mul, sqrt_polar_neg hs]
  · simp only [ComputeScale, ComputeScaleX, ComputeScaleY, cos_real, sin_real, sqrt_real]
    rw [sqrt_polar hs, ← neg_mul, sqrt_polar_neg hs]
    ring

/-- C20, in exact real arithmetic, at a concrete call: scale `2` at orientation `1`. -/
theorem isotropic_shape_witness :
    ∃ k, FeatureKeypoint6 (10 : ℝ) 20 1 (-1) 2 1 = Except.ok k ∧
      k.a22 = k.a11 ∧ k.a12 = -k.a21 ∧ k.ComputeShear = 0 ∧
      k.ComputeScaleX = 2 ∧ k.ComputeScaleY = 2 ∧ k.ComputeScale = 2 :=
  isotropic_shape 10 20 1 (-1) 2 1 (by norm_num)

open Binary32

/-- An integer rounds to itself. -/
theorem roundHalfEven_intCast {K : Type} [LinearOrderedField K] [FloorRing K]
    (n : ℤ) : roundHalfEven (n : K) = n := by
  unfold roundHalfEven
  simp

/-- A number of magnitude below one half rounds to the integer `0`. -/
theorem roundHalfEven_eq_zero {K : Type} [LinearOrderedField K] [FloorRing K]
    {t : K} (h : |t| < 1 / 2) : roundHalfEven t = 0 := by
  rw [abs_lt] at h
  unfold roundHalfEven
  by_cases ht : 0 ≤ t
  · have hf : ⌊t⌋ = 0 := by
      rw [Int.floor_eq_iff]
      constructor <;> norm_num <;> linarith
    rw [hf]
    have h0 : t - ((0 : ℤ) : K) < 1 / 2 := by push_cast; linarith
    rw [if_pos h0]
  · push_neg at ht
    have hf : ⌊t⌋ = -1 := by
      rw [Int.floor_eq_iff]
      constructor <;> push_cast <;> linarith
    rw [hf]
    have h1 : ¬ (t - ((-1 : ℤ) : K) < 1 / 2) := by push_cast; linarith
    have h2 : (1 : K) / 2 < t - ((-1 : ℤ) : K) := by push_cast; linarith
    rw [if_neg h1, if_pos h2]
    norm_num

/-- Rounding to the nearest integer moves a number by at most one half. -/
theorem roundHalfEven_sub_le {K : Type} [LinearOrderedField K] [FloorRing K]
    (t : K) : |(roundHalfEven t : K) - t| ≤ 1 / 2 := by
  have h1 := Int.floor_le t
  have h2 := Int.lt_floor_add_one t
  unfold roundHalfEven
  rw [abs_le]
  split_ifs with ha hb hc
  · constructor <;> linarith
  · push_cast; constructor <;> linarith
  · push_neg at ha hb
    constructor <;> linarith
  · push_neg at ha hb
    push_cast
    constructor <;> linarith

/-- The binary logarithm of a number between `2^n` and `2^(n+1)` is `n`. -/
theorem log_two_eq {K : Type} [LinearOrderedField K] [FloorRing K]
    {r : K} {n : ℤ} (h1 : (2 : K) ^ n ≤ r) (h2 : r < (2 : K) ^ (n + 1)) :
    Int.log 2 r = n := by
  have hr : 0 < r := lt_of_lt_of_le (by positivity) h1
  have ha : n ≤ Int.log 2 r := by
    rw [← Int.zpow_le_iff_le_log (by norm_num) hr]
    exact_mod_cast h1
  have hb : Int.log 2 r < n + 1 := by
    rw [← Int.lt_zpow_iff_log_lt (by norm_num) hr]
    exact_mod_cast h2
  omega

/-- Zero is a binary32 value. -/
theorem roundToNearest_zero {K : Type} [LinearOrderedField K] [FloorRing K]
    : roundToNearest (0 : K) = finite 0 := by
  unfold roundToNearest
  have h : ¬ ((2 : K) ^ 128 - 2 ^ 103 ≤ |(0 : K)|) := by norm_num
  rw [if_neg h]
  have : roundHalfEven ((0 : K) / 2 ^ ulpExponent (0 : K)) = 0 := by
    rw [zero_div]
    exact_mod_cast roundHalfEven_intCast (K := K) 0
  rw [this]
  simp


/-- Underflow: an exact result of magnitude below `2^-150`, half the smallest
subnormal, rounds to zero. -/
theorem roundToNearest_of_small {K : Type} [LinearOrderedField K] [FloorRing K]
    {r : K} (h : |r| < 2 ^ (-150 : ℤ)) :
    roundToNearest r = finite 0 := by
  by_cases h0 : r = 0
  · rw [h0]; exact roundToNearest_zero
  have hpos : 0 < |r| := abs_pos.mpr h0
  have hlog : Int.log 2 |r| < -150 := by
    rw [← Int.lt_zpow_iff_log_lt (by norm_num) hpos]
    exact_mod_cast h
  have he : ulpExponent r = -149 := by
    unfold ulpExponent
    omega
  unfold roundToNearest
  have hover : ¬ ((2 : K) ^ 128 - 2 ^ 103 ≤ |r|) := by
    have : (2 : K) ^ (-150 : ℤ) ≤ 1 := zpow_le_one_of_nonpos₀ (by norm_num) (by norm_num)
    have : (1 : K) < 2 ^ 128 - 2 ^ 103 := by norm_num
    linarith
  rw [if_neg hover, he]
  have ht : |r / (2 : K) ^ (-149 : ℤ)| < 1 / 2 := by
    rw [abs_div, abs_of_pos (by positivity : (0 : K) < 2 ^ (-149 : ℤ)),
      div_lt_iff₀ (by positivity)]
    calc |r| < 2 ^ (-150 : ℤ) := h
      _ = 1 / 2 * 2 ^ (-149 : ℤ) := by
        rw [show (-149 : ℤ) = -150 + 1 by norm_num, zpow_add_one₀ (by norm_num)]
        ring
  rw [roundHalfEven_eq_zero ht]
  simp

/-- A power of two in the normal range is a binary32 value. -/
theorem roundToNearest_two_zpow {K : Type} [LinearOrderedField K] [FloorRing K]
    (k : ℤ) (h1 : -126 ≤ k) (h2 : k ≤ 127) :
    roundToNearest ((2 : K) ^ k) = finite (2 ^ k) := by
  have hpos : (0 : K) < 2 ^ k := by positivity
  have hlog : Int.log 2 |(2 : K) ^ k| = k := by
    rw [abs_of_pos hpos]
    exact_mod_cast Int.log_zpow (R := K) (b := 2) (by norm_num) k
  have he : ulpExponent ((2 : K) ^ k) = k - 23 := by
    unfold ulpExponent
    omega
  unfold roundToNearest
  have hover : ¬ ((2 : K) ^ 128 - 2 ^ 103 ≤ |(2 : K) ^ k|) := by
    rw [abs_of_pos hpos, not_le]
    have : (2 : K) ^ k ≤ 2 ^ (127 : ℤ) := zpow_le_zpow_right₀ (by norm_num) h2
    have : (2 : K) ^ (127 : ℤ) < 2 ^ 128 - 2 ^ 103 := by norm_num
    linarith
  rw [if_neg hover, he]
  have ht : (2 : K) ^ k / 2 ^ (k - 23) = (((2 ^ 23 : ℕ) : ℤ) : K) := by
    rw [← zpow_sub₀ (by norm_num)]
    norm_num
  rw [ht, roundHalfEven_intCast]
  congr 1
  rw [zpow_sub₀ (by norm_num)]
  push_cast
  field_simp
  norm_num [mul_comm]

/-- An exact result of magnitude below `2` rounds to a finite value at most `2^-24`
away. -/
theorem roundToNearest_error {K : Type} [LinearOrderedField K] [FloorRing K] {r : K} (h : |r| < 2) :
    ∃ v : ℚ, roundToNearest r = finite v ∧ |(v : K) - r| ≤ 2 ^ (-24 : ℤ) := by
  have he : ulpExponent r ≤ -23 := by
    unfold ulpExponent
    have hlog : Int.log 2 |r| ≤ 0 := by
      by_cases h0 : r = 0
      · rw [h0, abs_zero, Int.log_of_right_le_zero _ le_rfl]
      have hpos : 0 < |r| := abs_pos.mpr h0
      have : Int.log 2 |r| < 1 := by
        rw [← Int.lt_zpow_iff_log_lt (by norm_num) hpos]
        simpa using h
      omega
    omega
  unfold roundToNearest
  have hover : ¬ ((2 : K) ^ 128 - 2 ^ 103 ≤ |r|) := by
    have : (2 : K) < 2 ^ 128 - 2 ^ 103 := by norm_num
    linarith
  rw [if_neg hover]
  refine ⟨_, rfl, ?_⟩
  set e := ulpExponent r with hedef
  have hp : (0 : K) < 2 ^ e := by positivity
  have hb := roundHalfEven_sub_le (r / (2 : K) ^ e)
  have hcast : (((roundHalfEven (r / (2 : K) ^ e) * 2 ^ e : ℚ)) : K) =
      (roundHalfEven (r / (2 : K) ^ e) : K) * 2 ^ e := by
    push_cast
    rfl
  rw [hcast]
  have hr : r = r / 2 ^ e * 2 ^ e := by field_simp
  have : (roundHalfEven (r / (2 : K) ^ e) : K) * 2 ^ e - r =
      ((roundHalfEven (r / (2 : K) ^ e) : K) - r / 2 ^ e) * 2 ^ e := by
    rw [sub_mul, ← hr]
  rw [this, abs_mul, abs_of_pos hp]
  have h23 : (2 : K) ^ e ≤ 2 ^ (-23 : ℤ) := zpow_le_zpow_right₀ (by norm_num) he
  calc |(roundHalfEven (r / (2 : K) ^ e) : K) - r / 2 ^ e| * 2 ^ e
      ≤ 1 / 2 * 2 ^ (-23 : ℤ) := by
        apply mul_le_mul hb h23 hp.le (by norm_num)
    _ = 2 ^ (-24 : ℤ) := by
        rw [show (-23 : ℤ) = -24 + 1 by norm_num, zpow_add_one₀ (by norm_num)]
        ring


/-- One is a binary32 value. -/
theorem roundToNearest_one {K : Type} [LinearOrderedField K] [FloorRing K] :
    roundToNearest (1 : K) = finite 1 := by
  have h := roundToNearest_two_zpow (K := K) 0 (by norm_num) (by norm_num)
  simpa using h

/-- Overflow: an exact result of magnitude `2^128 - 2^103` or more rounds to an
infinity. -/
theorem roundToNearest_of_large {K : Type} [LinearOrderedField K] [FloorRing K] {r : K}
    (h : (2 : K) ^ 128 - 2 ^ 103 ≤ |r|) : roundToNearest r = inf (decide (r < 0)) := by
  unfold roundToNearest
  rw [if_pos h]

/-- The product of two finite values is the rounded exact product. -/
theorem Binary32.mul_finite (v w : ℚ) :
    (finite v * finite w : Binary32) = roundToNearest (v * w) := rfl

/-- The sum of two finite values is the rounded exact sum. -/
theorem Binary32.add_finite (v w : ℚ) :
    (finite v + finite w : Binary32) = roundToNearest (v + w) := rfl

/-- The opposite of a finite value is exact. -/
theorem Binary32.neg_finite (v : ℚ) : (-finite v : Binary32) = finite (-v) := rfl

/-- The literal `0` is the finite value zero. -/
theorem Binary32.zero_eq : (0 : Binary32) = finite 0 := rfl

/-- The literal `1` is the finite value one. -/
theorem Binary32.one_eq : (1 : Binary32) = finite 1 := rfl

/-- An infinity times zero is NaN. -/
theorem Binary32.inf_mul_zero (s : Bool) : (inf s * finite 0 : Binary32) = nan := by
  show Binary32.mul (inf s) (finite 0) = nan
  simp [Binary32.mul]

/-- The cosine of a finite value is the rounded real cosine. -/
theorem Binary32.cos_finite (v : ℚ) :
    FloatMath.cos (finite v) = roundToNearest (Real.cos v) := rfl

/-- The sine of a finite value is the rounded real sine. -/
theorem Binary32.sin_finite (v : ℚ) :
    FloatMath.sin (finite v) = roundToNearest (Real.sin v) := rfl

/-- The square root of zero is zero. -/
theorem Binary32.sqrt_at_zero : FloatMath.sqrt (finite 0) = finite 0 := by
  show Binary32.sqrt (finite 0) = finite 0
  simp [Binary32.sqrt, roundToNearest_zero]

/-- On finite values `atan2` is the rounded principal argument. -/
theorem Binary32.atan2_finite (v w : ℚ) :
    FloatMath.atan2 (finite v) (finite w) = roundToNearest (realAtan2 v w) := rfl

/-- Comparison of zero with a finite value, `<=`. -/
theorem Binary32.zero_le_finite (v : ℚ) : (0 : Binary32) ≤ finite v ↔ 0 ≤ v := by
  show (ble (finite 0) (finite v) = true) ↔ 0 ≤ v
  simp [ble]

/-- Comparison of zero with a finite value, `<`. -/
theorem Binary32.zero_lt_finite (v : ℚ) : (0 : Binary32) < finite v ↔ 0 < v := by
  show (blt (finite 0) (finite v) = true) ↔ 0 < v
  simp [blt]

/-- Zero is below positive infinity. -/
theorem Binary32.zero_le_inf : (0 : Binary32) ≤ inf false := by
  show ble (finite 0) (inf false) = true
  rfl

/-- The query `ComputeScaleX` on a keypoint given by its eight fields. -/
theorem ComputeScaleX_mk {F : Type} [Add F] [Mul F] [FloatMath F]
    (x y w : F) (id : Int) (a11 a12 a21 a22 : F) :
    ComputeScaleX
        ({ x := x, y := y, weight := w, constraint_point_id := id,
           a11 := a11, a12 := a12, a21 := a21, a22 := a22 } : FeatureKeypoint F) =
      FloatMath.sqrt (a11 * a11 + a21 * a21) := rfl

/-- The query `ComputeOrientation` on a keypoint given by its eight fields. -/
theorem ComputeOrientation_mk {F : Type} [FloatMath F]
    (x y w : F) (id : Int) (a11 a12 a21 a22 : F) :
    ComputeOrientation
        ({ x := x, y := y, weight := w, constraint_point_id := id,
           a11 := a11, a12 := a12, a21 := a21, a22 := a22 } : FeatureKeypoint F) =
      FloatMath.atan2 a21 a11 := rfl

/-- The raw-matrix constructor, as the keypoint with the eight fields. -/
theorem FeatureKeypoint8_mk {F : Type} (x y w : F) (id : Int) (a11 a12 a21 a22 : F) :
    FeatureKeypoint8 x y w id a11 a12 a21 a22 =
      { x := x, y := y, weight := w, constraint_point_id := id,
        a11 := a11, a12 := a12, a21 := a21, a22 := a22 } := rfl

/-- The square of `2^k` underflows to zero for `k <= -76`. -/
theorem Binary32.two_zpow_mul_self_small {k : ℤ} (hk : k ≤ -76) :
    (finite (2 ^ k) * finite (2 ^ k) : Binary32) = finite 0 := by
  rw [Binary32.mul_finite]
  apply roundToNearest_of_small
  rw [← zpow_add₀ (by norm_num), abs_of_pos (by positivity)]
  exact zpow_lt_zpow_right₀ (by norm_num) (by omega)

/-- A power of two is not zero. -/
theorem Binary32.finite_two_zpow_ne_zero (k : ℤ) : finite (2 ^ k) ≠ (0 : Binary32) := by
  rw [Binary32.zero_eq]
  intro h
  injection h with h
  have : (0 : ℚ) < 2 ^ k := by positivity
  linarith

/-- C17, as stated, fails on binary32: with `a11 = a21 = 2^-80`, a finite non-zero
float, both squares underflow to zero and `ComputeScaleX` returns `0` although the
column is not zero. -/
theorem ComputeScaleX_zero_on_nonzero_column :
    roundToNearest ((2 : ℚ) ^ (-80 : ℤ)) = finite (2 ^ (-80 : ℤ)) ∧
      finite (2 ^ (-80 : ℤ)) ≠ (0 : Binary32) ∧
      (FeatureKeypoint8 (0 : Binary32) 0 1 (-1)
        (finite (2 ^ (-80 : ℤ))) 0 (finite (2 ^ (-80 : ℤ))) 1).ComputeScaleX = 0 := by
  refine ⟨roundToNearest_two_zpow _ (by norm_num) (by norm_num),
    Binary32.finite_two_zpow_ne_zero _, ?_⟩
  rw [FeatureKeypoint8_mk, ComputeScaleX_mk, Binary32.two_zpow_mul_self_small (by norm_num),
    Binary32.add_finite, add_zero, roundToNearest_zero, Binary32.sqrt_at_zero, Binary32.zero_eq]

/-- C20, as stated, fails on binary32: with `scale = 2^-80` and `orientation = 0` the
constructor succeeds and stores `a11 = scale`, `a21 = 0`; the square of `a11`
underflows and `ComputeScaleX` returns `0`, not `scale`. -/
theorem isotropic_scale_underflow :
    roundToNearest ((2 : ℚ) ^ (-80 : ℤ)) = finite (2 ^ (-80 : ℤ)) ∧
      (0 : Binary32) ≤ finite (2 ^ (-80 : ℤ)) ∧
      ∃ k, FeatureKeypoint6 (0 : Binary32) 0 1 (-1) (finite (2 ^ (-80 : ℤ))) 0 = Except.ok k ∧
        k.ComputeScaleX = 0 ∧ k.ComputeScaleX ≠ finite (2 ^ (-80 : ℤ)) := by
  have hrep : roundToNearest ((2 : ℚ) ^ (-80 : ℤ)) = finite (2 ^ (-80 : ℤ)) :=
    roundToNearest_two_zpow _ (by norm_num) (by norm_num)
  have hle : (0 : Binary32) ≤ finite (2 ^ (-80 : ℤ)) :=
    (Binary32.zero_le_finite _).mpr (by positivity)
  refine ⟨hrep, hle, ?_⟩
  rw [FeatureKeypoint6_eq, if_pos hle]
  refine ⟨_, rfl, ?_⟩
  have hX : ComputeScaleX
      ({ x := 0, y := 0, weight := 1, constraint_point_id := -1,
         a11 := finite (2 ^ (-80 : ℤ)) * FloatMath.cos 0,
         a12 := -(finite (2 ^ (-80 : ℤ)) * FloatMath.sin 0),
         a21 := finite (2 ^ (-80 : ℤ)) * FloatMath.sin 0,
         a22 := finite (2 ^ (-80 : ℤ)) * FloatMath.cos 0 } : FeatureKeypoint Binary32) =
      finite 0 := by
    rw [ComputeScaleX_mk, Binary32.zero_eq, Binary32.cos_finite, Binary32.sin_finite,
      Rat.cast_zero, Real.cos_zero, Real.sin_zero, roundToNearest_one, roundToNearest_zero,
      Binary32.mul_finite, mul_one, hrep, Binary32.two_zpow_mul_self_small (by norm_num),
      Binary32.mul_finite, mul_zero, roundToNearest_zero, Binary32.mul_finite, mul_zero,
      roundToNearest_zero, Binary32.add_finite, add_zero, roundToNearest_zero,
      Binary32.sqrt_at_zero]
  rw [hX]
  exact ⟨rfl, (Binary32.finite_two_zpow_ne_zero _).symm⟩


/-- The factory `FromShapeParameters` when both checks pass, on any carrier. -/
theorem FromShapeParameters_of_nonneg {F : Type} [Zero F] [Add F] [Mul F] [Neg F] [LE F]
    [DecidableRel (fun a b : F => a ≤ b)] [FloatMath F]
    (x y w : F) (id : Int) (scale_x scale_y orientation shear : F)
    (h : 0 ≤ scale_x ∧ 0 ≤ scale_y) :
    FromShapeParameters x y w id scale_x scale_y orientation shear =
      Except.ok
        { x := x, y := y, weight := w, constraint_point_id := id,
          a11 := scale_x * FloatMath.cos orientation,
          a12 := -scale_y * FloatMath.sin (orientation + shear),
          a21 := scale_x * FloatMath.sin orientation,
          a22 := scale_y * FloatMath.cos (orientation + shear) } := by
  rw [FromShapeParameters_eq, if_pos h]

/-- Running `Rescale` when both checks pass, on any carrier. -/
theorem Rescale_run_of_pos {F : Type} [Zero F] [Mul F] [LT F]
    [DecidableRel (fun a b : F => a < b)] (scale_x scale_y : F) (k : FeatureKeypoint F)
    (h : 0 < scale_x ∧ 0 < scale_y) :
    (Rescale scale_x scale_y).run k =
      (Except.ok (),
        { x := k.x * scale_x, y := k.y * scale_y, weight := k.weight,
          constraint_point_id := k.constraint_point_id,
          a11 := k.a11 * scale_x, a12 := k.a12 * scale_y,
          a21 := k.a21 * scale_x, a22 := k.a22 * scale_y }) := by
  rw [Rescale_run, if_pos h]

/-- Zero is at most one. -/
theorem Binary32.zero_le_unit : (0 : Binary32) ≤ 1 := by
  rw [Binary32.one_eq]
  exact (Binary32.zero_le_finite 1).mpr (by norm_num)

/-- Zero is below one. -/
theorem Binary32.zero_lt_unit : (0 : Binary32) < 1 := by
  rw [Binary32.one_eq]
  exact (Binary32.zero_lt_finite 1).mpr (by norm_num)

/-- One times one is one. -/
theorem Binary32.unit_mul_unit : (1 * 1 : Binary32) = 1 := by
  rw [Binary32.one_eq, Binary32.mul_finite, mul_one, roundToNearest_one]

/-- The sine of zero is zero. -/
theorem Binary32.sin_at_zero : FloatMath.sin (0 : Binary32) = 0 := by
  rw [Binary32.zero_eq, Binary32.sin_finite, Rat.cast_zero, Real.sin_zero, roundToNearest_zero]

/-- The cosine of zero is one. -/
theorem Binary32.cos_at_zero : FloatMath.cos (0 : Binary32) = 1 := by
  rw [Binary32.zero_eq, Binary32.cos_finite, Rat.cast_zero, Real.cos_zero, roundToNearest_one,
    Binary32.one_eq]

/-- A finite value times zero is zero. -/
theorem Binary32.finite_mul_zero (v : ℚ) : (finite v * 0 : Binary32) = 0 := by
  rw [Binary32.zero_eq, Binary32.mul_finite, mul_zero, roundToNearest_zero]

/-- Zero times a finite value is zero. -/
theorem Binary32.zero_mul_finite (v : ℚ) : (0 * finite v : Binary32) = 0 := by
  rw [Binary32.zero_eq, Binary32.mul_finite, zero_mul, roundToNearest_zero]

/-- The square of `2^k` overflows to positive infinity for `k >= 64`. -/
theorem Binary32.two_zpow_mul_self_large {k : ℤ} (hk : 64 ≤ k) :
    (finite (2 ^ k) * finite (2 ^ k) : Binary32) = inf false := by
  rw [Binary32.mul_finite]
  have hpos : (0 : ℚ) < 2 ^ k * 2 ^ k := by positivity
  have hbig : (2 : ℚ) ^ 128 - 2 ^ 103 ≤ |(2 : ℚ) ^ k * 2 ^ k| := by
    rw [abs_of_pos hpos, ← zpow_add₀ (by norm_num)]
    have h1 : (2 : ℚ) ^ (128 : ℤ) ≤ 2 ^ (k + k) :=
      zpow_le_zpow_right₀ (by norm_num) (by omega)
    have h2 : (2 : ℚ) ^ (128 : ℤ) = 2 ^ 128 := by norm_num
    have h3 : (0 : ℚ) < 2 ^ 103 := by positivity
    linarith
  rw [roundToNearest_of_large hbig, decide_eq_false (not_lt.mpr hpos.le)]

/-- C19, as stated, fails on binary32: with `x = y = 0`, `w = 1`, `scale_x = rx =
2^100`, `scale_y = ry = 1` and `orientation = shear = 0`, rescaling the keypoint of
the factory leaves `a21 = (2^100 * 0) * 2^100 = 0`, while the factory at the
rescaled scale `2^100 * 2^100 = +inf` stores `a21 = inf * 0 = NaN`. -/
theorem Rescale_FromShapeParameters_overflow :
    roundToNearest ((2 : ℚ) ^ (100 : ℤ)) = finite (2 ^ (100 : ℤ)) ∧
      (0 : Binary32) ≤ finite (2 ^ (100 : ℤ)) ∧ (0 : Binary32) ≤ 1 ∧
      (0 : Binary32) < finite (2 ^ (100 : ℤ)) ∧ (0 : Binary32) < 1 ∧
      ∃ k k1 k2,
        FromShapeParameters (0 : Binary32) 0 1 (-1) (finite (2 ^ (100 : ℤ))) 1 0 0 =
          Except.ok k ∧
        (Rescale (finite (2 ^ (100 : ℤ))) 1).run k = (Except.ok (), k1) ∧
        FromShapeParameters ((0 : Binary32) * finite (2 ^ (100 : ℤ))) (0 * 1) 1 (-1)
          (finite (2 ^ (100 : ℤ)) * finite (2 ^ (100 : ℤ))) (1 * 1) 0 0 = Except.ok k2 ∧
        k1.a21 = 0 ∧ k2.a21 = nan ∧ k1 ≠ k2 := by
  have hb0 : (0 : Binary32) ≤ finite (2 ^ (100 : ℤ)) :=
    (Binary32.zero_le_finite _).mpr (by positivity)
  have hblt : (0 : Binary32) < finite (2 ^ (100 : ℤ)) :=
    (Binary32.zero_lt_finite _).mpr (by positivity)
  have hbb : (0 : Binary32) ≤ finite (2 ^ (100 : ℤ)) * finite (2 ^ (100 : ℤ)) ∧
      (0 : Binary32) ≤ 1 * 1 := by
    rw [Binary32.two_zpow_mul_self_large (by norm_num), Binary32.unit_mul_unit]
    exact ⟨Binary32.zero_le_inf, Binary32.zero_le_unit⟩
  have ha1 : (finite (2 ^ (100 : ℤ)) * FloatMath.sin (0 : Binary32)) * finite (2 ^ (100 : ℤ)) =
      (0 : Binary32) := by
    rw [Binary32.sin_at_zero, Binary32.finite_mul_zero, Binary32.zero_mul_finite]
  have ha2 : (finite (2 ^ (100 : ℤ)) * finite (2 ^ (100 : ℤ))) * FloatMath.sin (0 : Binary32) =
      nan := by
    rw [Binary32.two_zpow_mul_self_large (by norm_num), Binary32.sin_at_zero, Binary32.zero_eq,
      Binary32.inf_mul_zero]
  refine ⟨roundToNearest_two_zpow _ (by norm_num) (by norm_num), hb0, Binary32.zero_le_unit,
    hblt, Binary32.zero_lt_unit, _, _, _,
    FromShapeParameters_of_nonneg _ _ _ _ _ _ _ _ ⟨hb0, Binary32.zero_le_unit⟩,
    Rescale_run_of_pos _ _ _ ⟨hblt, Binary32.zero_lt_unit⟩,
    FromShapeParameters_of_nonneg _ _ _ _ _ _ _ _ hbb, ha1, ha2, ?_⟩
  intro h
  have h21 := congrArg FeatureKeypoint.a21 h
  have h3 : (finite (2 ^ (100 : ℤ)) * FloatMath.sin (0 : Binary32)) * finite (2 ^ (100 : ℤ)) =
      (finite (2 ^ (100 : ℤ)) * finite (2 ^ (100 : ℤ))) * FloatMath.sin (0 : Binary32) := h21
  rw [ha1, ha2, Binary32.zero_eq] at h3
  cases h3


/-- At the origin `atan2` is `0`. -/
theorem realAtan2_zero_zero : realAtan2 0 0 = 0 := by
  have h : (⟨0, 0⟩ : ℂ) = 0 := by apply Complex.ext <;> simp
  rw [realAtan2, h, Complex.arg_zero]

/-- On the diagonal of the first quadrant `atan2` is `π/4`. -/
theorem realAtan2_diag {r : ℝ} (hr : 0 < r) : realAtan2 r r = Real.pi / 4 := by
  have h2 : Real.sqrt 2 * Real.sqrt 2 = 2 := Real.mul_self_sqrt (by norm_num)
  have hs : r * Real.sqrt 2 * (Real.sqrt 2 / 2) = r := by
    calc r * Real.sqrt 2 * (Real.sqrt 2 / 2) = r * (Real.sqrt 2 * Real.sqrt 2) / 2 := by ring
      _ = r := by rw [h2]; ring
  have h := realAtan2_polar (r := r * Real.sqrt 2) (θ := Real.pi / 4) (by positivity)
    ⟨by linarith [Real.pi_pos], by linarith [Real.pi_pos]⟩
  rw [Real.sin_pi_div_four, Real.cos_pi_div_four, hs] at h
  exact h

/-- C14, as stated, fails on binary32: on the keypoint with first column `(2^-100,
2^-100)`, `Rescale(2^-100, 1)` succeeds and both products underflow to zero, so
`ComputeOrientation` is `atan2(0, 0) = 0` after the call and the rounded `π/4`, not
zero, before it. -/
theorem Rescale_changes_orientation_underflow :
    roundToNearest ((2 : ℚ) ^ (-100 : ℤ)) = finite (2 ^ (-100 : ℤ)) ∧
      (0 : Binary32) < finite (2 ^ (-100 : ℤ)) ∧ (0 : Binary32) < 1 ∧
      ((Rescale (finite (2 ^ (-100 : ℤ))) 1).run
          (FeatureKeypoint8 (0 : Binary32) 0 1 (-1)
            (finite (2 ^ (-100 : ℤ))) 0 (finite (2 ^ (-100 : ℤ))) 1)).1 = Except.ok () ∧
      ((Rescale (finite (2 ^ (-100 : ℤ))) 1).run
          (FeatureKeypoint8 (0 : Binary32) 0 1 (-1)
            (finite (2 ^ (-100 : ℤ))) 0 (finite (2 ^ (-100 : ℤ))) 1)).2.ComputeOrientation = 0 ∧
      (FeatureKeypoint8 (0 : Binary32) 0 1 (-1)
        (finite (2 ^ (-100 : ℤ))) 0 (finite (2 ^ (-100 : ℤ))) 1).ComputeOrientation ≠ 0 := by
  have hlt : (0 : Binary32) < finite (2 ^ (-100 : ℤ)) :=
    (Binary32.zero_lt_finite _).mpr (by positivity)
  refine ⟨roundToNearest_two_zpow _ (by norm_num) (by norm_num), hlt, Binary32.zero_lt_unit,
    ?_, ?_, ?_⟩
  · rw [Rescale_run_of_pos _ _ _ ⟨hlt, Binary32.zero_lt_unit⟩]
  · rw [Rescale_run_of_pos _ _ _ ⟨hlt, Binary32.zero_lt_unit⟩, FeatureKeypoint8_mk]
    show FloatMath.atan2 (finite (2 ^ (-100 : ℤ)) * finite (2 ^ (-100 : ℤ)))
      (finite (2 ^ (-100 : ℤ)) * finite (2 ^ (-100 : ℤ))) = (0 : Binary32)
    rw [Binary32.two_zpow_mul_self_small (by norm_num), Binary32.atan2_finite, Rat.cast_zero,
      realAtan2_zero_zero, roundToNearest_zero, Binary32.zero_eq]
  · rw [FeatureKeypoint8_mk, ComputeOrientation_mk, Binary32.atan2_finite,
      realAtan2_diag (by positivity)]
    have hpi := Real.pi_gt_three
    have hpi4 := Real.pi_le_four
    obtain ⟨v, hv, herr⟩ := roundToNearest_error (r := Real.pi / 4)
      (by rw [abs_of_pos (by positivity)]; linarith)
    rw [hv, Binary32.zero_eq]
    intro h
    injection h with h
    rw [h, Rat.cast_zero, zero_sub, abs_neg, abs_of_pos (by positivity)] at herr
    have h24 : (2 : ℝ) ^ (-24 : ℤ) ≤ 1 / 2 := by
      rw [show (-24 : ℤ) = -(24 : ℕ) by norm_num, zpow_neg, zpow_natCast]
      norm_num
    linarith

/-- Rounding of a number in the normal range whose scaled value lies less than one
half above the integer `m`. -/
theorem roundToNearest_of_floor {K : Type} [LinearOrderedField K] [FloorRing K] {r : K}
    (n m : ℤ) (hn : -126 ≤ n) (h1 : (2 : K) ^ n ≤ |r|) (h2 : |r| < (2 : K) ^ (n + 1))
    (hover : |r| < (2 : K) ^ 128 - 2 ^ 103)
    (hm1 : (m : K) ≤ r / 2 ^ (n - 23)) (hm2 : r / 2 ^ (n - 23) - m < 1 / 2) :
    roundToNearest r = finite (m * 2 ^ (n - 23)) := by
  have he : ulpExponent r = n - 23 := by
    unfold ulpExponent
    rw [log_two_eq h1 h2]
    omega
  have hfloor : ⌊r / (2 : K) ^ (n - 23)⌋ = m := by
    rw [Int.floor_eq_iff]
    constructor
    · exact hm1
    · linarith
  unfold roundToNearest
  rw [if_neg (not_le.mpr hover), he]
  unfold roundHalfEven
  rw [hfloor, if_pos hm2]

/-- Absorption: at `2^27`, where neighbouring values are `16` apart, adding `1`
changes nothing. -/
theorem Binary32.absorb_one : (finite (2 ^ (27 : ℤ)) + 1 : Binary32) = finite (2 ^ (27 : ℤ)) := by
  rw [Binary32.one_eq, Binary32.add_finite]
  have h := roundToNearest_of_floor (K := ℚ) (r := 2 ^ (27 : ℤ) + 1) 27 8388608
    (by norm_num) (by norm_num) (by norm_num) (by norm_num) (by norm_num) (by norm_num)
  rw [h]
  norm_num

/-- One times a finite value is that value rounded. -/
theorem Binary32.one_mul_finite (v : ℚ) : (1 * finite v : Binary32) = roundToNearest v := by
  rw [Binary32.one_eq, Binary32.mul_finite, one_mul]

/-- Minus one times a finite value is its opposite rounded. -/
theorem Binary32.neg_one_mul_finite (v : ℚ) :
    (-1 * finite v : Binary32) = roundToNearest (-v) := by
  rw [Binary32.one_eq, Binary32.neg_finite, Binary32.mul_finite, neg_one_mul]

/-- A product of a factor of magnitude at most `1` and one of magnitude at most `E`
has magnitude at most `E`. -/
theorem abs_mul_le_of_le {a b E : ℝ} (ha : |a| ≤ 1) (hb : |b| ≤ E) : |a * b| ≤ E := by
  rw [abs_mul]
  calc |a| * |b| ≤ 1 * E := mul_le_mul ha hb (abs_nonneg _) (by norm_num)
    _ = E := one_mul E

/-- The rounding error bound for a rational exact result, read in the reals. -/
theorem roundToNearest_rat_error {q : ℚ} (h : |(q : ℝ)| < 2) :
    ∃ v : ℚ, roundToNearest q = finite v ∧ |(v : ℝ) - q| ≤ 2 ^ (-24 : ℤ) := by
  have hq : |q| < 2 := by exact_mod_cast h
  obtain ⟨v, hv, herr⟩ := roundToNearest_error hq
  refine ⟨v, hv, ?_⟩
  rw [Rat.cast_id] at herr
  have := (Rat.cast_le (K := ℝ)).mpr herr
  push_cast at this
  exact this

/-- A number within `1/1000` of one of magnitude at most `1` has magnitude below `2`. -/
theorem abs_lt_two_of_near {c κ : ℝ} (hκ : |κ| ≤ 1) (h : |c - κ| ≤ 1 / 1000) : |c| < 2 := by
  have := abs_sub_abs_le_abs_sub c κ
  linarith

/-- Four entries within rounding error of `cos θ`, `-sin θ`, `sin θ`, `cos θ` have a
determinant near `1`, away from `cos 1`. -/
theorem det_far_from_cos_one {κ σ c s c1 s1 s2 : ℝ} (hone : κ ^ 2 + σ ^ 2 = 1)
    (hκ : |κ| ≤ 1) (hσ : |σ| ≤ 1) (hc : |c - κ| ≤ 1 / 1000) (hs : |s - σ| ≤ 1 / 1000)
    (hc1 : |c1 - c| ≤ 1 / 1000) (hs1 : |s1 - s| ≤ 1 / 1000) (hs2 : |s2 - -s| ≤ 1 / 1000) :
    c1 * c1 - s2 * s1 ≠ 1 * 1 * Real.cos 1 := by
  have hcos1 := Real.cos_one_le
  have hd1 : |c1 - κ| ≤ 1 / 500 := by
    have := abs_sub_le c1 c κ
    linarith
  have hd2 : |s1 - σ| ≤ 1 / 500 := by
    have := abs_sub_le s1 s σ
    linarith
  have hd3 : |s2 + σ| ≤ 1 / 500 := by
    have h1 : s2 + σ = (s2 - -s) + (σ - s) := by ring
    rw [h1]
    have h2 := abs_add (s2 - -s) (σ - s)
    have h3 : |σ - s| = |s - σ| := abs_sub_comm _ _
    linarith
  have b1 := abs_le.mp (abs_mul_le_of_le hκ hd1)
  have b2 := abs_le.mp (abs_mul_le_of_le hσ hd2)
  have b3 := abs_le.mp (abs_mul_le_of_le hσ hd3)
  have hd2' : |s1 - σ| ≤ 1 := by linarith
  have b4 := abs_le.mp (abs_mul_le_of_le hd2' hd3)
  have b5 : 0 ≤ (c1 - κ) * (c1 - κ) := mul_self_nonneg _
  have hdet : c1 * c1 - s2 * s1 =
      κ ^ 2 + σ ^ 2 + 2 * (κ * (c1 - κ)) + (c1 - κ) * (c1 - κ)
        - σ * (s2 + σ) + σ * (s1 - σ) - (s1 - σ) * (s2 + σ) := by
    ring
  intro hcontra
  rw [hdet, hone] at hcontra
  linarith

/-- C15, as stated, fails on binary32: with `scale_x = scale_y = 1`, `orientation =
2^27` and `shear = 1` the float sum `orientation + shear` is `orientation` again,
the stored entries are finite and their determinant is not
`scale_x * scale_y * cos(shear) = cos 1`. -/
theorem shape_matrix_absorbed_shear :
    roundToNearest ((2 : ℚ) ^ (27 : ℤ)) = finite (2 ^ (27 : ℤ)) ∧
      (finite (2 ^ (27 : ℤ)) + 1 : Binary32) = finite (2 ^ (27 : ℤ)) ∧
      (0 : Binary32) ≤ 1 ∧
      ∃ a11 a12 a21 a22 : ℚ,
        FromShapeParameters (0 : Binary32) 0 1 (-1) 1 1 (finite (2 ^ (27 : ℤ))) 1 =
          Except.ok
            { x := 0, y := 0, weight := 1, constraint_point_id := -1,
              a11 := finite a11, a12 := finite a12,
              a21 := finite a21, a22 := finite a22 } ∧
        Matrix.det !![(a11 : ℝ), (a12 : ℝ); (a21 : ℝ), (a22 : ℝ)] ≠ 1 * 1 * Real.cos 1 := by
  refine ⟨roundToNearest_two_zpow _ (by norm_num) (by norm_num), Binary32.absorb_one,
    Binary32.zero_le_unit, ?_⟩
  have he : (2 : ℝ) ^ (-24 : ℤ) ≤ 1 / 1000 := by
    rw [show (-24 : ℤ) = -(24 : ℕ) by norm_num, zpow_neg, zpow_natCast]
    norm_num
  have hκ := Real.abs_cos_le_one (((2 : ℚ) ^ (27 : ℤ) : ℚ) : ℝ)
  have hσ := Real.abs_sin_le_one (((2 : ℚ) ^ (27 : ℤ) : ℚ) : ℝ)
  have hone := Real.cos_sq_add_sin_sq (((2 : ℚ) ^ (27 : ℤ) : ℚ) : ℝ)
  obtain ⟨c, hc, hcerr⟩ := roundToNearest_error
    (r := Real.cos (((2 : ℚ) ^ (27 : ℤ) : ℚ) : ℝ)) (lt_of_le_of_lt hκ (by norm_num))
  obtain ⟨s, hs, hserr⟩ := roundToNearest_error
    (r := Real.sin (((2 : ℚ) ^ (27 : ℤ) : ℚ) : ℝ)) (lt_of_le_of_lt hσ (by norm_num))
  replace hcerr := le_trans hcerr he
  replace hserr := le_trans hserr he
  have hc2 : |(c : ℝ)| < 2 := abs_lt_two_of_near hκ hcerr
  have hs2 : |(s : ℝ)| < 2 := abs_lt_two_of_near hσ hserr
  have hs2n : |((-s : ℚ) : ℝ)| < 2 := by
    rw [Rat.cast_neg, abs_neg]
    exact hs2
  obtain ⟨c1, hc1, hc1err⟩ := roundToNearest_rat_error hc2
  obtain ⟨s1, hs1, hs1err⟩ := roundToNearest_rat_error hs2
  obtain ⟨s2, hs2', hs2err⟩ := roundToNearest_rat_error hs2n
  replace hc1err := le_trans hc1err he
  replace hs1err := le_trans hs1err he
  replace hs2err := le_trans hs2err he
  rw [Rat.cast_neg] at hs2err
  refine ⟨c1, s2, s1, c1, ?_, ?_⟩
  · rw [FromShapeParameters_of_nonneg _ _ _ _ _ _ _ _ ⟨Binary32.zero_le_unit, Binary32.zero_le_unit⟩,
      Binary32.absorb_one, Binary32.cos_finite, Binary32.sin_finite, hc, hs,
      Binary32.one_mul_finite, Binary32.one_mul_finite, Binary32.neg_one_mul_finite,
      hc1, hs1, hs2']
  · rw [Matrix.det_fin_two_of]
    exact det_far_from_cos_one hone hκ hσ hcerr hserr hc1err hs1err hs2err

end colmap
